import Mathlib

/-!
Verification of the lattestream-js SDK core against its specification.

The TypeScript sources are shallowly embedded:
* JavaScript values that flow through `JSON.stringify` / `JSON.parse` are
  modelled by the inductive `JVal`; byte buffers (`Uint8Array`) by `List Nat`
  (each element a byte value).
* `JSON.stringify` / `JSON.parse` and the HMAC primitive are platform
  builtins external to the repository, so functions that call them are
  parameterised by them, together with the pointwise properties a proof
  needs (e.g. that parsing the serialisation of a value gives the value back).
* Stateful classes (`Connection`, `LatteStream`, channels) become explicit
  state records with one Lean function per source handler/method, and the
  asynchronous handlers of `Connection` become a step function over an
  event alphabet.
-/

/-- Model of a JavaScript value as produced/consumed by `JSON.parse` /
`JSON.stringify`, extended with a `bytes` constructor for `Uint8Array`
values that appear in the binary-protocol payloads. Objects are ordered
field lists (JS objects preserve insertion order). -/
inductive JVal where
  | null : JVal
  | bool : Bool → JVal
  | num : Int → JVal
  | str : String → JVal
  | arr : List JVal → JVal
  | obj : List (String × JVal) → JVal
  | bytes : List Nat → JVal

/-- JavaScript truthiness of a `JVal` (`!x` in the source checks this). -/
def JVal.truthy : JVal → Bool
  | .null => false
  | .bool b => b
  | .num n => n != 0
  | .str s => s ≠ ""
  | .arr _ => true
  | .obj _ => true
  | .bytes _ => true

/-- JS property lookup `o.k` on an object value; `none` models `undefined`. -/
def JVal.getField (v : JVal) (k : String) : Option JVal :=
  match v with
  | .obj fs => fs.lookup k
  | _ => none

/-- JS `Map.prototype.set`, and likewise object-spread-with-override
`\x7b...o, k: v\x7d` on ordered field lists: an existing key keeps its
position and gets the new value, a new key is appended. -/
def jsMapSet {α : Type} (m : List (String × α)) (k : String) (v : α) :
    List (String × α) :=
  if (m.lookup k).isSome then
    m.map (fun p => if p.1 = k then (k, v) else p)
  else
    m ++ [(k, v)]

/-- JS object-spread-with-override `\x7b...o, k: v\x7d` restricted to object
fields: if `k` is already present its value is replaced in place, otherwise
`(k, v)` is appended. -/
def setKey (fs : List (String × JVal)) (k : String) (v : JVal) : List (String × JVal) :=
  jsMapSet fs k v

/-- JS spread into an object literal with a trailing `binaryData` entry,
`\x7b...metadata, binaryData: tail\x7d` (binary-protocol.ts line 180).
For the object metadata produced by `JSON.parse` of a JSON object this is
`setKey`; the claims only exercise object metadata, and for the remaining
constructors the model keeps just the `binaryData` field. -/
def jsSpreadWithBinaryData (metadata : JVal) (tail : List Nat) : JVal :=
  match metadata with
  | .obj fs => .obj (setKey fs "binaryData" (.bytes tail))
  | _ => .obj [("binaryData", .bytes tail)]

/-- The four little-endian bytes written by `DataView.setUint32(0, n, true)`
(the stored value is `n` reduced modulo `2^32`). -/
def u32le (n : Nat) : List Nat :=
  [n % 256, n / 256 % 256, n / 65536 % 256, n / 16777216 % 256]

/-- The value read by `DataView.getUint32(0, true)` from four bytes. -/
def readU32le (b0 b1 b2 b3 : Nat) : Nat :=
  b0 + 256 * b1 + 65536 * b2 + 16777216 * b3

/-- Decode failures of the binary protocol. Each constructor corresponds to
one `throw new Error(...)` site, carrying the data interpolated into the
message; `wrapped` is the re-throw in the `catch` of
`parseLatteStreamBinaryProtocol` that prefixes the message with the message
type (binary-protocol.ts line 142). -/
inductive DecodeError where
  | tooShort : Nat → DecodeError
  | payloadTruncated : Nat → Nat → DecodeError
  | zeroPayloadLength : DecodeError
  | metadataPayloadTooShort : Nat → DecodeError
  | metadataTruncated : Nat → Nat → DecodeError
  | zeroMetadataLength : DecodeError
  | jsonError : DecodeError
  | emptyUnknownPayload : Nat → DecodeError
  | wrapped : Nat → DecodeError → DecodeError

/-- `parseBinaryPayloadWithMetadata` (binary-protocol.ts lines 149-188) for a
type-`0x02` payload, parameterised by the external `JSON.parse`-on-UTF-8
composite `jsonParse`. The first four payload bytes are the little-endian
metadata length, then that many metadata bytes, then the raw binary tail. -/
def parseBinaryPayloadWithMetadata (jsonParse : List Nat → Option JVal)
    (payloadBytes : List Nat) : Except DecodeError JVal :=
  match payloadBytes with
  | m0 :: m1 :: m2 :: m3 :: mrest =>
    let metadataLength := readU32le m0 m1 m2 m3
    if 4 + mrest.length < 4 + metadataLength then
      .error (.metadataTruncated (4 + metadataLength) (4 + mrest.length))
    else if metadataLength = 0 then
      .error .zeroMetadataLength
    else
      let metadataBytes := mrest.take metadataLength
      let binaryDataBytes := mrest.drop metadataLength
      match jsonParse metadataBytes with
      | some metadata => .ok (jsSpreadWithBinaryData metadata binaryDataBytes)
      | none => .error .jsonError
  | _ => .error (.metadataPayloadTooShort payloadBytes.length)

/-- `parseCompressedPayload` (binary-protocol.ts lines 193-199): the `0x03`
"compressed" type currently performs no decompression and parses the payload
as UTF-8 JSON. -/
def parseCompressedPayload (jsonParse : List Nat → Option JVal)
    (payloadBytes : List Nat) : Except DecodeError JVal :=
  match jsonParse payloadBytes with
  | some v => .ok v
  | none => .error .jsonError

/-- Whether a byte is JS string whitespace (for the `trim()` in the unknown-
type fallback branch). -/
def isWsByte (b : Nat) : Bool :=
  b = 32 || b = 9 || b = 10 || b = 13 || b = 12 || b = 11

/-- Errors thrown inside the `try` of `parseLatteStreamBinaryProtocol` are
re-thrown wrapped with the message type (the length/zero checks before the
`try` are not wrapped). -/
def wrapErr (messageType : Nat) : Except DecodeError JVal → Except DecodeError JVal
  | .ok v => .ok v
  | .error e => .error (.wrapped messageType e)

/-- `parseLatteStreamBinaryProtocol` (binary-protocol.ts lines 84-144).
The first eight bytes are the little-endian `messageType` and
`payloadLength`; the match on eight leading cons cells is the
`bytes.length < 8` check, and `rest` is `bytes.slice(8)`. -/
def parseLatteStreamBinaryProtocol (jsonParse : List Nat → Option JVal) :
    List Nat → Except DecodeError JVal
  | b0 :: b1 :: b2 :: b3 :: b4 :: b5 :: b6 :: b7 :: rest =>
    let messageType := readU32le b0 b1 b2 b3
    let payloadLength := readU32le b4 b5 b6 b7
    if 8 + rest.length < 8 + payloadLength then
      .error (.payloadTruncated (8 + payloadLength) (8 + rest.length))
    else if payloadLength = 0 then
      .error .zeroPayloadLength
    else
      let payloadBytes := rest.take payloadLength
      wrapErr messageType
        (if messageType = 1 then
          match jsonParse payloadBytes with
          | some v => .ok v
          | none => .error .jsonError
        else if messageType = 2 then
          parseBinaryPayloadWithMetadata jsonParse payloadBytes
        else if messageType = 3 then
          parseCompressedPayload jsonParse payloadBytes
        else if payloadBytes.all isWsByte then
          .error (.emptyUnknownPayload messageType)
        else
          match jsonParse payloadBytes with
          | some v => .ok v
          | none => .error .jsonError)
  | bytes => .error (.tooShort bytes.length)

/-- `createBinaryMessage` (binary-protocol.ts lines 204-245), parameterised
by the external `JSON.stringify`-then-UTF-8-encode composite `stringify`.
`none` models the thrown `Error` for a missing `metadata`/`binaryData`
property or an unsupported message type; for type `0x02` the source reads
`payload.binaryData.length` and copies it with `Uint8Array.set`, so the
model requires it to be a `bytes` value. -/
def createBinaryMessage (stringify : JVal → List Nat) (messageType : Nat)
    (payload : JVal) : Option (List Nat) :=
  let payloadBytes? : Option (List Nat) :=
    if messageType = 1 then
      some (stringify payload)
    else if messageType = 2 then
      match payload.getField "binaryData", payload.getField "metadata" with
      | some (.bytes binaryData), some metadata =>
        if (JVal.bytes binaryData).truthy && metadata.truthy then
          let metadataBytes := stringify metadata
          some (u32le metadataBytes.length ++ metadataBytes ++ binaryData)
        else
          none
      | _, _ => none
    else
      none
  match payloadBytes? with
  | some payloadBytes => some (u32le messageType ++ u32le payloadBytes.length ++ payloadBytes)
  | none => none

/-- Composition used by the round-trip claims: encode with
`createBinaryMessage`, then decode the produced frame with
`parseLatteStreamBinaryProtocol`. -/
def decodeEncoded (stringify : JVal → List Nat) (jsonParse : List Nat → Option JVal)
    (messageType : Nat) (payload : JVal) : Option (Except DecodeError JVal) :=
  (createBinaryMessage stringify messageType payload).map
    (parseLatteStreamBinaryProtocol jsonParse)

/-- JS `String.prototype.startsWith`, modelled on the character sequence. -/
def strStartsWith (s p : String) : Bool :=
  p.data.isPrefixOf s.data

/-- Channel classification result (`'public' | 'private' | 'presence'`). -/
inductive ChannelType where
  | public' : ChannelType
  | private' : ChannelType
  | presence' : ChannelType
deriving DecidableEq

/-- `getChannelType` (auth.ts lines 115-122): classify a channel name by its
prefix, checking `presence-` before `private-`. -/
def getChannelType (channelName : String) : ChannelType :=
  if strStartsWith channelName "presence-" then .presence'
  else if strStartsWith channelName "private-" then .private'
  else .public'

/-- The channel-object state the claims observe: its name, which variant the
`switch` in `LatteStream.subscribe` constructed, and the `subscribed` flag. -/
structure ChannelS where
  name : String
  ctype : ChannelType
  subscribed : Bool
deriving DecidableEq

/-- An outbound `\x7bevent, data, channel\x7d` frame. -/
structure Frame where
  event : String
  data : JVal
  channel : String

/-- `Channel.trigger` (channel.ts lines 28-48). The abstract connection send
is summarised by the Bool it returns; the second component records the
frames actually handed to `send` (empty means no send happened). The method
only consults `this.subscribed`; it never throws, which the model reflects
by being total. -/
def Channel.trigger (ch : ChannelS) (sendResult : Bool) (eventName : String)
    (data : JVal) : Bool × List Frame :=
  if !ch.subscribed then
    (false, [])
  else
    (sendResult, [⟨eventName, data, ch.name⟩])

/-- The `LatteStream` client state observed by the subscribe claims: the
`channels` map (a JS `Map`, i.e. an insertion-ordered association list) and
whether an `Authorizer` was constructed (options.authEndpoint given,
client.ts lines 25-27). -/
structure ClientS where
  channels : List (String × ChannelS)
  hasAuthorizer : Bool
deriving DecidableEq

/-- The two `throw new Error(...)` sites in `LatteStream.subscribe`. -/
inductive SubscribeError where
  | privateRequiresAuthEndpoint : SubscribeError
  | presenceRequiresAuthEndpoint : SubscribeError
deriving DecidableEq

/-- JS `Map.prototype.set`: replace the value of an existing key in place,
else append. -/
def mapSet (m : List (String × ChannelS)) (k : String) (v : ChannelS) :
    List (String × ChannelS) :=
  jsMapSet m k v

/-- `LatteStream.subscribe` (client.ts lines 51-110). Returns the resulting
channel (or the thrown error) together with the post-call client state; a
throw happens before `channels.set`, so on error the state is returned
unchanged. The deferred subscribe handshake (`subscribeChannel`) does not
touch the channel map and is not modelled here. -/
def LatteStream.subscribe (cl : ClientS) (channelName : String) :
    Except SubscribeError ChannelS × ClientS :=
  match cl.channels.lookup channelName with
  | some ch => (.ok ch, cl)
  | none =>
    match getChannelType channelName with
    | .private' =>
      if cl.hasAuthorizer then
        let ch : ChannelS := ⟨channelName, .private', false⟩
        (.ok ch, ⟨mapSet cl.channels channelName ch, cl.hasAuthorizer⟩)
      else
        (.error .privateRequiresAuthEndpoint, cl)
    | .presence' =>
      if cl.hasAuthorizer then
        let ch : ChannelS := ⟨channelName, .presence', false⟩
        (.ok ch, ⟨mapSet cl.channels channelName ch, cl.hasAuthorizer⟩)
      else
        (.error .presenceRequiresAuthEndpoint, cl)
    | .public' =>
      let ch : ChannelS := ⟨channelName, .public', false⟩
      (.ok ch, ⟨mapSet cl.channels channelName ch, cl.hasAuthorizer⟩)

/-- State of a `PresenceChannel`'s membership bookkeeping: the `members`
map, plus the channel-level events emitted so far (event name and the
member it carried). The `ObjectPool` in the source only recycles record
allocations; `handleMemberAdded` copies `id` and `info` into the pooled
record before use, so pooling has no observable effect here. -/
structure PresenceS where
  members : List (String × JVal)
  emitted : List (String × String × JVal)

/-- `PresenceChannel.handleMemberAdded` (channel.ts lines 228-235):
`members.set(id, member)` then emit `member_added`. -/
def PresenceChannel.handleMemberAdded (s : PresenceS) (id : String) (info : JVal) :
    PresenceS where
  members := jsMapSet s.members id info
  emitted := s.emitted ++ [("lattestream:member_added", id, info)]

/-- `PresenceChannel.handleMemberRemoved` (channel.ts lines 237-244): only
if `members.get(id)` finds an entry is it deleted and `member_removed`
emitted; otherwise nothing happens. -/
def PresenceChannel.handleMemberRemoved (s : PresenceS) (id : String) : PresenceS :=
  match s.members.lookup id with
  | some info =>
    { members := s.members.filter (fun p => !(p.1 = id : Bool))
      emitted := s.emitted ++ [("lattestream:member_removed", id, info)] }
  | none => s

/-- JS strings handled character-wise (server-side `encryption.ts` does
index/`charCodeAt` arithmetic, so the character-list view is used there). -/
abbrev JStr := List Char

/-- JS `String.prototype.split(sep)` for a one-character separator: splitting
the empty string gives `[""]`, and each separator occurrence starts a new
segment. -/
def jsplit (sep : Char) : JStr → List JStr
  | [] => [[]]
  | c :: cs =>
    let r := jsplit sep cs
    if c = sep then [] :: r
    else (c :: r.headD []) :: r.tail

/-- The string the HMAC is computed over in `generateAuthString`
(encryption.ts lines 11-12): `socketId:channelName`, extended with
`:channelData` when channel data is present. -/
def signingString (socketId channelName : JStr) (channelData : Option JStr) : JStr :=
  let stringToSign := socketId ++ ':' :: channelName
  match channelData with
  | some d => stringToSign ++ ':' :: d
  | none => stringToSign

/-- `EncryptionHelper.generateAuthString` (encryption.ts lines 10-19),
parameterised by the external `crypto` HMAC-SHA256-hex primitive
`hmac : key → message → digest`. -/
def generateAuthString (hmac : JStr → JStr → JStr) (masterKey socketId channelName : JStr)
    (channelData : Option JStr) : JStr :=
  socketId ++ ':' :: hmac masterKey (signingString socketId channelName channelData)

/-- `EncryptionHelper.constantTimeCompare` (encryption.ts lines 59-70):
length check, then OR-accumulate the XOR of the char codes. -/
def constantTimeCompare (a b : JStr) : Bool :=
  if a.length ≠ b.length then false
  else
    ((List.zip a b).foldl (fun result p => result ||| (p.1.toNat ^^^ p.2.toNat)) 0) == 0

/-- `EncryptionHelper.verifyAuthString` (encryption.ts lines 21-35):
destructure the first two `:`-separated segments of the auth string (an
absent or empty segment fails), regenerate the expected auth string for the
extracted socket id, and constant-time-compare the signatures. The
`try/catch` returning `false` has no reachable throw under the model
(`expectedSignature` always exists because the regenerated string contains
a `:`). -/
def verifyAuthString (hmac : JStr → JStr → JStr) (masterKey : JStr)
    (authString channelName : JStr) (channelData : Option JStr) : Bool :=
  let parts := jsplit ':' authString
  match parts.get? 0, parts.get? 1 with
  | some socketId, some signature =>
    if socketId = [] ∨ signature = [] then false
    else
      let expectedAuth := generateAuthString hmac masterKey socketId channelName channelData
      match (jsplit ':' expectedAuth).get? 1 with
      | some expectedSignature => constantTimeCompare signature expectedSignature
      | none => false
  | _, _ => false

/-- The five connection states (types.ts `ConnectionState`). -/
inductive ConnState where
  | disconnected | connecting | connected | unavailable | failed
deriving DecidableEq

/-- Connection configuration relevant to the reconnection claims:
`maxReconnectionAttempts` (after the `|| 6` default) and whether the
credential is a `lspc_`/`lspk_` token (`Connection.isToken`). -/
structure ConnOpts where
  maxReconnectionAttempts : Nat
  isToken : Bool
deriving DecidableEq

/-- The `Connection` instance state the reconnection claims observe.
`wsPresent` is `this.ws !== null`; `reconnectTimer` is whether the
`setTimeout` scheduled by `attemptReconnect` is pending; `debouncePending`
is whether the 100 ms `debounce` wrapper around `attemptReconnect` has a
pending timeout. `clearTimers` cancels `reconnectTimer` but cannot reach
the debounce's closure-internal timeout, so it leaves `debouncePending`
untouched. -/
structure Conn where
  state : ConnState
  reconnectAttempts : Nat
  wsPresent : Bool
  reconnectTimer : Bool
  debouncePending : Bool
deriving DecidableEq

/-- `Connection.clearTimers` (connection.ts lines 384-399) restricted to the
modelled timers (activity and pong timers carry no claim-relevant state). -/
def Connection.clearTimers (c : Conn) : Conn :=
  { c with reconnectTimer := false }

/-- The synchronous effect of `Connection.connect` (connection.ts lines
44-79). `ok = true` is the path that reaches the `WebSocket` constructor;
`ok = false` is the path where the body throws (discovery failure or an
invalid key format), which runs `handleConnectionError`: state `failed` and
a debounced reconnect request (lines 300-304). -/
def Connection.connect (ok : Bool) (c : Conn) : Conn :=
  if c.state = .connected ∨ c.state = .connecting then c
  else
    let c1 := Connection.clearTimers { c with state := .connecting }
    if ok then { c1 with wsPresent := true }
    else { c1 with state := .failed, debouncePending := true }

/-- The `ws.onopen` handler (connection.ts lines 185-198): for token
credentials it only sends the api key; otherwise it sets state `connected`.
It never touches `reconnectAttempts`. -/
def Connection.wsOpen (o : ConnOpts) (c : Conn) : Conn :=
  if !c.wsPresent then c
  else if o.isToken then c
  else { c with state := .connected }

/-- The `connection_established` branch of `Connection.handleMessage`
(connection.ts lines 247-258): records the socket id and, for token
credentials not yet connected, sets state `connected`. It never touches
`reconnectAttempts`. -/
def Connection.connEstablished (o : ConnOpts) (c : Conn) : Conn :=
  if !c.wsPresent then c
  else if o.isToken ∧ c.state ≠ .connected then { c with state := .connected }
  else c

/-- `LatteStream.handleChannelEvent` receiving `subscription_succeeded` for a
registered channel calls `Connection.resetBackoffOnSuccess` (client.ts lines
221-228, connection.ts lines 162-164 and 274-280): the attempt counter is
zeroed. Inbound frames require a live transport. -/
def Connection.subSucceeded (c : Conn) : Conn :=
  if !c.wsPresent then c
  else { c with reconnectAttempts := 0 }

/-- `Connection.handleDisconnection` (connection.ts lines 282-298), run by
`ws.onclose`: drop the socket, clear timers, and request a debounced
reconnect if the state was `connected`/`connecting` (via `disconnected`) or
`unavailable`; in any other state do nothing further. -/
def Connection.handleDisconnection (c : Conn) : Conn :=
  if !c.wsPresent then c
  else
    let c1 := Connection.clearTimers { c with wsPresent := false }
    if c1.state = .connected ∨ c1.state = .connecting then
      { c1 with state := .disconnected, debouncePending := true }
    else if c1.state = .unavailable then
      { c1 with debouncePending := true }
    else c1

/-- The body of `Connection.attemptReconnect` (connection.ts lines 306-344)
as it affects the machine state: at or beyond the attempt budget it moves to
`failed` and schedules nothing; otherwise it increments the counter, moves a
non-`connecting` state to `unavailable`, and schedules the reconnect timer. -/
def Connection.attemptReconnect (o : ConnOpts) (c : Conn) : Conn :=
  if o.maxReconnectionAttempts ≤ c.reconnectAttempts then
    { c with state := .failed }
  else
    let c1 := { c with reconnectAttempts := c.reconnectAttempts + 1 }
    let c2 := if c1.state ≠ .connecting then { c1 with state := .unavailable } else c1
    { c2 with reconnectTimer := true }

/-- The debounce wrapper firing: only possible while a debounced request is
pending, and it runs `attemptReconnect`. -/
def Connection.debounceFire (o : ConnOpts) (c : Conn) : Conn :=
  if c.debouncePending then
    Connection.attemptReconnect o { c with debouncePending := false }
  else c

/-- The reconnect `setTimeout` firing: only possible while scheduled; it
calls `connect()` (connection.ts lines 340-343). -/
def Connection.reconnectTimerFire (_o : ConnOpts) (ok : Bool) (c : Conn) : Conn :=
  if c.reconnectTimer then
    Connection.connect ok { c with reconnectTimer := false }
  else c

/-- `Connection.disconnect` (connection.ts lines 81-91): clear timers, zero
the attempt counter, drop the socket, state `disconnected`. -/
def Connection.disconnect (c : Conn) : Conn :=
  { Connection.clearTimers c with
      reconnectAttempts := 0, wsPresent := false, state := .disconnected }

/-- `Connection.forceReconnect` (connection.ts lines 148-160): clear timers,
zero the attempt counter, drop the socket, set state `connecting`, then call
`connect()` — which returns immediately because the state is already
`connecting`. -/
def Connection.forceReconnect (c : Conn) : Conn :=
  Connection.connect true
    { Connection.clearTimers c with
        reconnectAttempts := 0, wsPresent := false, state := .connecting }

/-- The event alphabet of the connection machine. `connectCall`,
`disconnectCall` and `forceReconnectCall` are caller-initiated; the rest are
produced by the transport, inbound frames, or the connection's own timers. -/
inductive ConnEvent where
  | connectCall (ok : Bool)
  | wsOpen
  | connEstablished
  | subSucceeded
  | wsClose
  | debounceFire
  | reconnectTimerFire (ok : Bool)
  | disconnectCall
  | forceReconnectCall
deriving DecidableEq

/-- One step of the connection machine: dispatch the event to the handler
translated from the source. -/
def Connection.step (o : ConnOpts) (e : ConnEvent) (c : Conn) : Conn :=
  match e with
  | .connectCall ok => Connection.connect ok c
  | .wsOpen => Connection.wsOpen o c
  | .connEstablished => Connection.connEstablished o c
  | .subSucceeded => Connection.subSucceeded c
  | .wsClose => Connection.handleDisconnection c
  | .debounceFire => Connection.debounceFire o c
  | .reconnectTimerFire ok => Connection.reconnectTimerFire o ok c
  | .disconnectCall => Connection.disconnect c
  | .forceReconnectCall => Connection.forceReconnect c

/-- Whether an event is generated by the system itself (transport, inbound
frames, timers) rather than by an explicit caller invocation. -/
def ConnEvent.isSystem : ConnEvent → Bool
  | .connectCall _ => false
  | .disconnectCall => false
  | .forceReconnectCall => false
  | _ => true

/-- The connection has entered `failed` with the reconnection budget
exhausted and nothing pending: no live socket, no scheduled reconnect
timer, no pending debounced request. -/
def ExhaustedFailed (o : ConnOpts) (c : Conn) : Prop :=
  c.state = .failed ∧ o.maxReconnectionAttempts ≤ c.reconnectAttempts ∧
    c.wsPresent = false ∧ c.reconnectTimer = false ∧ c.debouncePending = false

/-- Reconnection options relevant to the delay computation of
`Connection.attemptReconnect` (after their `||` defaults), with the JS
number arithmetic idealised over `ℚ`. -/
structure ReconnectOpts where
  maxReconnectionAttempts : Nat
  maxReconnectGapInSeconds : ℚ
  reconnectBaseDelay : ℚ
  reconnectBackoffMultiplier : ℚ
  reconnectJitter : Bool

/-- The delay before jitter computed by `Connection.attemptReconnect`
(connection.ts lines 319-320):
`min(multiplier ^ attempt * baseDelay, maxGap * 1000)`. -/
def unjitteredDelay (o : ReconnectOpts) (attempt : Nat) : ℚ :=
  min (o.reconnectBackoffMultiplier ^ attempt * o.reconnectBaseDelay)
    (o.maxReconnectGapInSeconds * 1000)

/-- The delay scheduled by `Connection.attemptReconnect` for a given value
`rand` of `Math.random()` (connection.ts lines 313-326): `none` when the
attempt counter has reached the budget (state moves to `failed` and no delay
is computed), otherwise the un-jittered delay plus `rand * (delay * 0.25)`
when jitter is enabled. -/
def attemptReconnectDelay (o : ReconnectOpts) (attempt : Nat) (rand : ℚ) : Option ℚ :=
  if o.maxReconnectionAttempts ≤ attempt then none
  else
    let delay := unjitteredDelay o attempt
    some (if o.reconnectJitter then delay + rand * (delay * (1 / 4)) else delay)

/-- C3 counterexample "stringify": a serialiser observed only at the single
metadata object the counterexample uses. -/
def toyStringify : JVal → List Nat := fun _ => [65]

/-- C3 counterexample "parse": inverse of `toyStringify` at that object. -/
def toyParse : List Nat → Option JVal := fun l =>
  if l.length = 1 then some (.obj [("a", JVal.num 1)]) else none

/-- C9 counterexample "HMAC": a fixed digest, sufficient to exercise the
splitting logic of `verifyAuthString`. -/
def toyHmac : JStr → JStr → JStr := fun _ _ => ['s', 'i', 'g']

/-- C9 witness digest: prefixes `h` and strips colons, so its outputs are
nonempty, colon-free, and distinct for inputs that differ outside colons. -/
def hmacW : JStr → JStr → JStr := fun _ m => 'h' :: m.filter (fun c => !(c = ':' : Bool))

theorem readU32le_u32le (n : Nat) (h : n < 4294967296) :
    readU32le (n % 256) (n / 256 % 256) (n / 65536 % 256) (n / 16777216 % 256) = n := by
  unfold readU32le
  omega

theorem lookup_eq_none_of_not_mem_keys {α : Type} (m : List (String × α)) (k : String)
    (h : k ∉ m.map Prod.fst) : m.lookup k = none := by
  induction m with
  | nil => rfl
  | cons p t ih =>
    simp only [List.map_cons, List.mem_cons, not_or] at h
    have hk : (k == p.1) = false := beq_eq_false_iff_ne.mpr h.1
    simp [List.lookup, hk, ih h.2]

theorem not_mem_keys_of_lookup_none {α : Type} (m : List (String × α)) (k : String)
    (h : m.lookup k = none) : k ∉ m.map Prod.fst := by
  induction m with
  | nil => simp
  | cons p t ih =>
    rcases hpk : (k == p.1) with _ | _
    · simp only [List.lookup, hpk] at h
      simp only [List.map_cons, List.mem_cons, not_or]
      exact ⟨by simpa using hpk, ih h⟩
    · simp [List.lookup, hpk] at h

theorem countKey_eq_zero_of_lookup_none {α : Type} (m : List (String × α)) (k : String)
    (h : m.lookup k = none) : m.countP (fun p => k == p.1) = 0 := by
  induction m with
  | nil => rfl
  | cons p t ih =>
    rcases hpk : (k == p.1) with _ | _
    · simp only [List.lookup, hpk] at h
      simp [List.countP_cons, hpk, ih h]
    · simp [List.lookup, hpk] at h

theorem countKey_eq_one_of_nodup {α : Type} (m : List (String × α)) (k : String)
    (hnd : (m.map Prod.fst).Nodup) (h : (m.lookup k).isSome) :
    m.countP (fun p => k == p.1) = 1 := by
  induction m with
  | nil => simp [List.lookup] at h
  | cons p t ih =>
    simp only [List.map_cons, List.nodup_cons] at hnd
    rcases hpk : (k == p.1) with _ | _
    · simp only [List.lookup, hpk] at h
      simp [List.countP_cons, hpk, ih hnd.2 h]
    · have hk : k = p.1 := by simpa using hpk
      have hnone : t.lookup k = none :=
        lookup_eq_none_of_not_mem_keys t k (by rw [hk]; exact hnd.1)
      simp [List.countP_cons, hpk, countKey_eq_zero_of_lookup_none t k hnone]

theorem jsMapSet_of_lookup_none {α : Type} (m : List (String × α)) (k : String) (v : α)
    (h : m.lookup k = none) : jsMapSet m k v = m ++ [(k, v)] := by
  simp [jsMapSet, h]

theorem lookup_map_replace {α : Type} (m : List (String × α)) (k : String) (v : α)
    (h : (m.lookup k).isSome) :
    (m.map (fun p => if p.1 = k then (k, v) else p)).lookup k = some v := by
  induction m with
  | nil => simp [List.lookup] at h
  | cons p t ih =>
    by_cases hp : p.1 = k
    · simp only [List.map_cons]
      rw [if_pos hp]
      simp [List.lookup]
    · have hpk : (k == p.1) = false := beq_eq_false_iff_ne.mpr (fun he => hp he.symm)
      simp only [List.map_cons]
      rw [if_neg hp]
      simp only [List.lookup, hpk]
      apply ih
      simpa [List.lookup, hpk] using h

theorem lookup_append_single {α : Type} (m : List (String × α)) (k : String) (v : α)
    (h : m.lookup k = none) : (m ++ [(k, v)]).lookup k = some v := by
  induction m with
  | nil => simp [List.lookup]
  | cons p t ih =>
    rcases hpk : (k == p.1) with _ | _
    · simp only [List.lookup, hpk] at h
      simp [List.cons_append, List.lookup, hpk, ih h]
    · simp [List.lookup, hpk] at h

theorem jsMapSet_lookup_self {α : Type} (m : List (String × α)) (k : String) (v : α) :
    (jsMapSet m k v).lookup k = some v := by
  unfold jsMapSet
  split
  · exact lookup_map_replace m k v (by assumption)
  · rename_i hn
    exact lookup_append_single m k v
      (Option.not_isSome_iff_eq_none.mp (by simpa using hn))

theorem jsMapSet_countKey {α : Type} (m : List (String × α)) (k : String) (v : α)
    (hnd : (m.map Prod.fst).Nodup) :
    (jsMapSet m k v).countP (fun p => k == p.1) = 1 := by
  unfold jsMapSet
  split
  · rename_i hsome
    rw [List.countP_map]
    have hcong : ∀ p ∈ m,
        (((fun q => (k == q.1 : Bool)) ∘ fun q => if q.1 = k then (k, v) else q) p = true
          ↔ (fun q => (k == q.1 : Bool)) p = true) := by
      intro p _
      by_cases hp : p.1 = k <;> simp [hp]
    rw [List.countP_congr hcong]
    exact countKey_eq_one_of_nodup m k hnd hsome
  · rename_i hnone
    rw [List.countP_append]
    rw [countKey_eq_zero_of_lookup_none m k
      (Option.not_isSome_iff_eq_none.mp (by simpa using hnone))]
    simp [List.countP_cons]

theorem jsMapSet_keys_nodup {α : Type} (m : List (String × α)) (k : String) (v : α)
    (hnd : (m.map Prod.fst).Nodup) : ((jsMapSet m k v).map Prod.fst).Nodup := by
  unfold jsMapSet
  split
  · have hkeys : (m.map (fun p => if p.1 = k then (k, v) else p)).map Prod.fst
        = m.map Prod.fst := by
      rw [List.map_map]
      apply List.map_congr_left
      intro p _
      by_cases hp : p.1 = k <;> simp [hp]
    rw [hkeys]
    exact hnd
  · rename_i hnone
    have hnotmem : k ∉ m.map Prod.fst :=
      not_mem_keys_of_lookup_none m k
        (Option.not_isSome_iff_eq_none.mp (by simpa using hnone))
    simp only [List.map_append, List.map_cons, List.map_nil]
    exact List.Nodup.append hnd (List.nodup_singleton k)
      (by simpa [List.disjoint_singleton] using hnotmem)

theorem jsplit_ne_nil (sep : Char) (s : JStr) : jsplit sep s ≠ [] := by
  cases s with
  | nil => simp [jsplit]
  | cons c cs =>
    by_cases hc : c = sep <;> simp [jsplit, hc]

theorem jsplit_no_sep (sep : Char) (s : JStr) (h : sep ∉ s) : jsplit sep s = [s] := by
  induction s with
  | nil => rfl
  | cons c cs ih =>
    simp only [List.mem_cons, not_or] at h
    have hcs := ih h.2
    have hcne : ¬c = sep := fun hc => h.1 hc.symm
    simp [jsplit, hcs, hcne]

theorem jsplit_append_sep (sep : Char) (p r : JStr) (h : sep ∉ p) :
    jsplit sep (p ++ sep :: r) = p :: jsplit sep r := by
  induction p with
  | nil => simp [jsplit]
  | cons c cs ih =>
    simp only [List.mem_cons, not_or] at h
    have hcs := ih h.2
    have hcne : ¬c = sep := fun hc => h.1 hc.symm
    simp [jsplit, hcs, hcne]

theorem jsplit_head (sep : Char) (s : JStr) :
    (jsplit sep s).head? = some (s.takeWhile (fun c => !(c = sep : Bool))) := by
  induction s with
  | nil => rfl
  | cons c cs ih =>
    by_cases hc : c = sep
    · simp [jsplit, hc, List.takeWhile_cons]
    · have hne := jsplit_ne_nil sep cs
      rcases hj : jsplit sep cs with _ | ⟨h1, t1⟩
      · exact absurd hj hne
      · rw [hj] at ih
        simp only [List.head?] at ih
        have hih := Option.some.inj ih
        simp [jsplit, hc, hj, List.takeWhile_cons, hih]

theorem foldl_or_eq_zero_iff (l : List Nat) (a : Nat) :
    l.foldl (fun result x => result ||| x) a = 0 ↔ a = 0 ∧ ∀ x ∈ l, x = 0 := by
  induction l generalizing a with
  | nil => simp
  | cons x t ih =>
    simp only [List.foldl_cons, ih, List.mem_cons]
    constructor
    · rintro ⟨hax, hall⟩
      have hor : a = 0 ∧ x = 0 := by
        constructor
        · by_contra ha
          obtain ⟨i, hi⟩ := Nat.exists_most_significant_bit ha
          have h2 := congrArg (fun n => n.testBit i) hax
          simp [Nat.testBit_lor, hi.1] at h2
        · by_contra hx
          obtain ⟨i, hi⟩ := Nat.exists_most_significant_bit hx
          have h2 := congrArg (fun n => n.testBit i) hax
          simp [Nat.testBit_lor, hi.1] at h2
      exact ⟨hor.1, fun y hy => hy.elim (fun he => he ▸ hor.2) (hall y)⟩
    · rintro ⟨ha, hall⟩
      exact ⟨by simp [ha, hall x (Or.inl rfl)], fun y hy => hall y (Or.inr hy)⟩

theorem char_toNat_inj (c d : Char) (h : c.toNat = d.toNat) : c = d := by
  rw [← Char.ofNat_toNat c, ← Char.ofNat_toNat d, h]

theorem constantTimeCompare_iff (a b : JStr) :
    constantTimeCompare a b = true ↔ a = b := by
  unfold constantTimeCompare
  split
  · rename_i hlen
    constructor
    · intro h
      exact absurd h (by simp)
    · intro h
      exact absurd (h ▸ rfl) hlen
  · rename_i hlen
    rw [not_ne_iff] at hlen
    have hfold : ((List.zip a b).foldl (fun result p => result ||| (p.1.toNat ^^^ p.2.toNat)) 0)
        = ((List.zip a b).map (fun p => p.1.toNat ^^^ p.2.toNat)).foldl
            (fun result x => result ||| x) 0 := by
      rw [List.foldl_map]
    rw [beq_iff_eq, hfold, foldl_or_eq_zero_iff]
    simp only [true_and]
    constructor
    · intro hall
      apply List.ext_getElem hlen
      intro i hia hib
      have hmem : (a[i], b[i]) ∈ List.zip a b := by
        rw [List.mem_iff_getElem]
        refine ⟨i, by rw [List.length_zip]; omega, ?_⟩
        rw [List.getElem_zip]
      have hx : a[i].toNat ^^^ b[i].toNat = 0 :=
        hall _ (List.mem_map_of_mem (fun p => p.1.toNat ^^^ p.2.toNat) hmem)
      exact char_toNat_inj _ _ (Nat.xor_eq_zero.mp hx)
    · rintro rfl
      intro x hx
      obtain ⟨p, hp, hgp⟩ := List.mem_map.mp hx
      obtain ⟨i, hi, he⟩ := List.mem_iff_getElem.mp hp
      rw [List.getElem_zip] at he
      subst he
      simp [← hgp]

/-- C1: for every attempt number below the budget, the delay computed by
`Connection.attemptReconnect` before jitter equals
`min(baseDelay * multiplier ^ attempt, maxGap * 1000)` milliseconds, and
with jitter enabled the scheduled delay lies in the half-open interval
from the un-jittered delay (inclusive) to 1.25 times it (exclusive),
for any value of `Math.random()` in `[0, 1)` and positive options. -/
theorem attemptReconnect_delay_spec (o : ReconnectOpts) (a : Nat) (r : ℚ)
    (ha : a < o.maxReconnectionAttempts)
    (hb : 0 < o.reconnectBaseDelay) (hm : 0 < o.reconnectBackoffMultiplier)
    (hg : 0 < o.maxReconnectGapInSeconds) (hr0 : 0 ≤ r) (hr1 : r < 1) :
    unjitteredDelay o a
        = min (o.reconnectBaseDelay * o.reconnectBackoffMultiplier ^ a)
            (o.maxReconnectGapInSeconds * 1000)
      ∧ (o.reconnectJitter = false →
          attemptReconnectDelay o a r = some (unjitteredDelay o a))
      ∧ (o.reconnectJitter = true →
          ∃ d, attemptReconnectDelay o a r = some d ∧
            unjitteredDelay o a ≤ d ∧ d < unjitteredDelay o a * (5 / 4)) := by
  have hguard : ¬ o.maxReconnectionAttempts ≤ a := Nat.not_le.mpr ha
  refine ⟨?_, ?_, ?_⟩
  · unfold unjitteredDelay
    rw [mul_comm]
  · intro hj
    unfold attemptReconnectDelay
    rw [if_neg hguard, hj]
    simp
  · intro hj
    have hu : 0 < unjitteredDelay o a := by
      unfold unjitteredDelay
      apply lt_min
      · positivity
      · positivity
    refine ⟨unjitteredDelay o a + r * (unjitteredDelay o a * (1 / 4)), ?_, ?_, ?_⟩
    · unfold attemptReconnectDelay
      rw [if_neg hguard, hj]
      simp
    · nlinarith
    · nlinarith

/-- C1 witness: the default options (budget 6, 30 s gap, 1000 ms base,
multiplier 2, jitter on) at attempt 2 and random draw 0. -/
theorem attemptReconnect_delay_spec_witness :
    (2 < 6 ∧ (0:ℚ) < 1000 ∧ (0:ℚ) < 2 ∧ (0:ℚ) < 30 ∧ (0:ℚ) ≤ 0 ∧ (0:ℚ) < 1)
    ∧ (unjitteredDelay ⟨6, 30, 1000, 2, true⟩ 2
          = min ((1000:ℚ) * 2 ^ 2) ((30:ℚ) * 1000)
        ∧ ((⟨6, 30, 1000, 2, true⟩ : ReconnectOpts).reconnectJitter = false →
            attemptReconnectDelay ⟨6, 30, 1000, 2, true⟩ 2 0
              = some (unjitteredDelay ⟨6, 30, 1000, 2, true⟩ 2))
        ∧ ((⟨6, 30, 1000, 2, true⟩ : ReconnectOpts).reconnectJitter = true →
            ∃ d, attemptReconnectDelay ⟨6, 30, 1000, 2, true⟩ 2 0 = some d ∧
              unjitteredDelay ⟨6, 30, 1000, 2, true⟩ 2 ≤ d ∧
              d < unjitteredDelay ⟨6, 30, 1000, 2, true⟩ 2 * (5 / 4))) :=
  ⟨⟨by decide, by decide, by decide, by decide, by decide, by decide⟩,
    attemptReconnect_delay_spec ⟨6, 30, 1000, 2, true⟩ 2 0
      (by decide) (by decide) (by decide) (by decide) (by decide) (by decide)⟩

/-- C2 counterexample: the claim that the reconnection attempt counter is
reset to 0 only by a subscription-success event is false — an explicit
`disconnect()` call (connection.ts line 83) also zeroes it, here from a
connected state with 3 recorded attempts and no subscription success. -/
theorem reset_only_by_subscription_false :
    ¬ (∀ (o : ConnOpts) (c : Conn) (e : ConnEvent),
        (Connection.step o e c).reconnectAttempts = 0 →
        c.reconnectAttempts = 0 ∨ e = ConnEvent.subSucceeded) := by
  intro h
  have := h ⟨6, true⟩ ⟨.connected, 3, true, false, false⟩ .disconnectCall (by rfl)
  rcases this with h3 | hev
  · exact absurd h3 (by decide)
  · exact absurd hev (by simp)

/-- C2 amended: transport open (`ws.onopen`) and the
`connection_established` frame never change the reconnection attempt
counter; the only events that zero a non-zero counter are a channel
subscription success, an explicit `disconnect()`, and an explicit
`forceReconnect()`. -/
theorem reset_sources_of_attempt_counter (o : ConnOpts) (c : Conn) :
    (Connection.step o .wsOpen c).reconnectAttempts = c.reconnectAttempts
    ∧ (Connection.step o .connEstablished c).reconnectAttempts = c.reconnectAttempts
    ∧ ∀ e : ConnEvent, (Connection.step o e c).reconnectAttempts = 0 →
        c.reconnectAttempts = 0 ∨ e = ConnEvent.subSucceeded
          ∨ e = ConnEvent.disconnectCall ∨ e = ConnEvent.forceReconnectCall := by
  refine ⟨?_, ?_, ?_⟩
  · simp only [Connection.step, Connection.wsOpen]
    split
    · rfl
    · split <;> rfl
  · simp only [Connection.step, Connection.connEstablished]
    split
    · rfl
    · split <;> rfl
  · intro e h
    cases e with
    | connectCall ok =>
      simp only [Connection.step, Connection.connect, Connection.clearTimers] at h
      split at h
      · exact Or.inl h
      · split at h <;> exact Or.inl h
    | wsOpen =>
      simp only [Connection.step, Connection.wsOpen] at h
      split at h
      · exact Or.inl h
      · split at h <;> exact Or.inl h
    | connEstablished =>
      simp only [Connection.step, Connection.connEstablished] at h
      split at h
      · exact Or.inl h
      · split at h <;> exact Or.inl h
    | subSucceeded => exact Or.inr (Or.inl rfl)
    | wsClose =>
      simp only [Connection.step, Connection.handleDisconnection,
        Connection.clearTimers] at h
      split at h
      · exact Or.inl h
      · split at h
        · exact Or.inl h
        · split at h <;> exact Or.inl h
    | debounceFire =>
      simp only [Connection.step, Connection.debounceFire,
        Connection.attemptReconnect] at h
      split at h
      · split at h
        · exact Or.inl h
        · split at h <;> simp at h
      · exact Or.inl h
    | reconnectTimerFire ok =>
      simp only [Connection.step, Connection.reconnectTimerFire,
        Connection.connect, Connection.clearTimers] at h
      split at h
      · split at h
        · exact Or.inl h
        · split at h <;> exact Or.inl h
      · exact Or.inl h
    | disconnectCall => exact Or.inr (Or.inr (Or.inl rfl))
    | forceReconnectCall => exact Or.inr (Or.inr (Or.inr rfl))

/-- C2 amended witness: the counter value 5 survives a transport open and a
`connection_established` frame, and a zero counter after a `wsClose` event
forces the counter to have been zero already. -/
theorem reset_sources_of_attempt_counter_witness :
    (Connection.step ⟨6, true⟩ .wsOpen ⟨.connecting, 5, true, false, false⟩).reconnectAttempts
        = (⟨.connecting, 5, true, false, false⟩ : Conn).reconnectAttempts
    ∧ (Connection.step ⟨6, true⟩ .connEstablished
          ⟨.connecting, 5, true, false, false⟩).reconnectAttempts
        = (⟨.connecting, 5, true, false, false⟩ : Conn).reconnectAttempts
    ∧ ((Connection.step ⟨6, true⟩ .wsClose
          ⟨.connecting, 5, true, false, false⟩).reconnectAttempts = 0 →
        (⟨.connecting, 5, true, false, false⟩ : Conn).reconnectAttempts = 0
          ∨ ConnEvent.wsClose = ConnEvent.subSucceeded
          ∨ ConnEvent.wsClose = ConnEvent.disconnectCall
          ∨ ConnEvent.wsClose = ConnEvent.forceReconnectCall) :=
  ⟨(reset_sources_of_attempt_counter ⟨6, true⟩ ⟨.connecting, 5, true, false, false⟩).1,
    (reset_sources_of_attempt_counter ⟨6, true⟩ ⟨.connecting, 5, true, false, false⟩).2.1,
    (reset_sources_of_attempt_counter ⟨6, true⟩
      ⟨.connecting, 5, true, false, false⟩).2.2 ConnEvent.wsClose⟩

/-- C5: entering `failed` by exhausting the reconnection budget schedules
nothing further; from that configuration every system-generated event
(transport open/close, inbound frames, timer fires) leaves the machine
exactly in place — the state stays `failed` and no reconnect is scheduled —
while an explicit `forceReconnect()` zeroes the attempt counter and
re-enters `connecting`. -/
theorem failed_budget_exhausted_stable (o : ConnOpts) (c : Conn) :
    (c.debouncePending = true → o.maxReconnectionAttempts ≤ c.reconnectAttempts →
      c.wsPresent = false → c.reconnectTimer = false →
      ExhaustedFailed o (Connection.step o .debounceFire c))
    ∧ (ExhaustedFailed o c →
        ∀ e : ConnEvent, e.isSystem = true → Connection.step o e c = c)
    ∧ ((Connection.step o .forceReconnectCall c).state = .connecting
        ∧ (Connection.step o .forceReconnectCall c).reconnectAttempts = 0) := by
  refine ⟨?_, ?_, ?_⟩
  · intro hdb hmax hws htm
    simp only [Connection.step, Connection.debounceFire, hdb, if_true,
      Connection.attemptReconnect]
    rw [if_pos hmax]
    exact ⟨rfl, hmax, hws, htm, rfl⟩
  · rintro ⟨hst, hmax, hws, htm, hdb⟩ e hsys
    cases e with
    | connectCall ok => simp [ConnEvent.isSystem] at hsys
    | wsOpen =>
      simp [Connection.step, Connection.wsOpen, hws]
    | connEstablished =>
      simp [Connection.step, Connection.connEstablished, hws]
    | subSucceeded =>
      simp [Connection.step, Connection.subSucceeded, hws]
    | wsClose =>
      simp [Connection.step, Connection.handleDisconnection, hws]
    | debounceFire =>
      simp [Connection.step, Connection.debounceFire, hdb]
    | reconnectTimerFire ok =>
      simp [Connection.step, Connection.reconnectTimerFire, htm]
    | disconnectCall => simp [ConnEvent.isSystem] at hsys
    | forceReconnectCall => simp [ConnEvent.isSystem] at hsys
  · constructor <;>
      simp [Connection.step, Connection.forceReconnect, Connection.connect,
        Connection.clearTimers]

/-- C5 witness: the concrete exhausted configuration (budget 6, counter 6)
reached right as the final debounced attempt fires, checked against all
three parts of the theorem at sample system events. -/
theorem failed_budget_exhausted_stable_witness :
    ((⟨.unavailable, 6, false, false, true⟩ : Conn).debouncePending = true
      ∧ (6:Nat) ≤ 6
      ∧ (⟨.unavailable, 6, false, false, true⟩ : Conn).wsPresent = false
      ∧ (⟨.unavailable, 6, false, false, true⟩ : Conn).reconnectTimer = false)
    ∧ ExhaustedFailed ⟨6, true⟩
        (Connection.step ⟨6, true⟩ .debounceFire ⟨.unavailable, 6, false, false, true⟩)
    ∧ (ExhaustedFailed ⟨6, true⟩ ⟨.failed, 6, false, false, false⟩ →
        ∀ e : ConnEvent, e.isSystem = true →
          Connection.step ⟨6, true⟩ e ⟨.failed, 6, false, false, false⟩
            = ⟨.failed, 6, false, false, false⟩) :=
  ⟨⟨rfl, by decide, rfl, rfl⟩,
    (failed_budget_exhausted_stable ⟨6, true⟩ ⟨.unavailable, 6, false, false, true⟩).1
      rfl (by decide) rfl rfl,
    (failed_budget_exhausted_stable ⟨6, true⟩ ⟨.failed, 6, false, false, false⟩).2.1⟩

/-- C6 counterexample: the claim that `trigger` sends only on private or
presence channels is false — on a subscribed public channel the source's
`trigger` (which checks only `this.subscribed`) hands the frame to `send`
and returns its result. -/
theorem trigger_public_claim_false :
    ¬ (∀ (ch : ChannelS) (sendResult : Bool) (eventName : String) (d : JVal),
        ch.ctype = ChannelType.public' →
        Channel.trigger ch sendResult eventName d = (false, [])) := by
  intro h
  have := h ⟨"news", .public', true⟩ true "client-typing" .null rfl
  simp [Channel.trigger] at this

/-- C6 amended: `trigger` never throws and is gated only on the
`subscribed` flag, regardless of channel type — when the channel is not
subscribed it sends nothing and returns `false`; when subscribed (public
channels included) it sends exactly one client-event frame and returns the
connection's send result. -/
theorem trigger_gated_on_subscribed (ch : ChannelS) (sendResult : Bool)
    (eventName : String) (d : JVal) :
    (ch.subscribed = false →
      Channel.trigger ch sendResult eventName d = (false, []))
    ∧ (ch.subscribed = true →
      Channel.trigger ch sendResult eventName d
        = (sendResult, [⟨eventName, d, ch.name⟩])) := by
  constructor <;> intro h <;> simp [Channel.trigger, h]

/-- C6 amended witness: an unsubscribed private channel returns failure
without sending, and a subscribed private channel sends one frame. -/
theorem trigger_gated_on_subscribed_witness :
    ((⟨"private-a", .private', false⟩ : ChannelS).subscribed = false →
      Channel.trigger ⟨"private-a", .private', false⟩ true "e" .null = (false, []))
    ∧ ((⟨"private-a", .private', true⟩ : ChannelS).subscribed = true →
      Channel.trigger ⟨"private-a", .private', true⟩ true "e" .null
        = (true, [⟨"e", .null, "private-a"⟩])) :=
  ⟨(trigger_gated_on_subscribed ⟨"private-a", .private', false⟩ true "e" .null).1,
    (trigger_gated_on_subscribed ⟨"private-a", .private', true⟩ true "e" .null).2⟩

/-- C7: `subscribe` is idempotent — a registered name returns the stored
channel object and leaves the client unchanged — and classification is a
pure function of the name's prefix: `presence-` gives a presence channel,
`private-` a private one, anything else public; on a successful first call
the constructed channel carries exactly `getChannelType name` and is
appended to the registry. -/
theorem subscribe_idempotent_and_classified (cl : ClientS) (name : String) :
    (∀ ch, cl.channels.lookup name = some ch →
        LatteStream.subscribe cl name = (.ok ch, cl))
    ∧ (strStartsWith name "presence-" = true → getChannelType name = .presence')
    ∧ (strStartsWith name "private-" = true → getChannelType name = .private')
    ∧ (strStartsWith name "presence-" = false → strStartsWith name "private-" = false →
        getChannelType name = .public')
    ∧ (cl.channels.lookup name = none →
        (getChannelType name = .public' ∨ cl.hasAuthorizer = true) →
        ∃ ch, LatteStream.subscribe cl name
              = (.ok ch, ⟨cl.channels ++ [(name, ch)], cl.hasAuthorizer⟩)
            ∧ ch.ctype = getChannelType name ∧ ch.name = name
            ∧ ch.subscribed = false) := by
  refine ⟨?_, ?_, ?_, ?_, ?_⟩
  · intro ch h
    simp [LatteStream.subscribe, h]
  · intro h
    simp [getChannelType, h]
  · intro h
    have hnp : strStartsWith name "presence-" = false := by
      by_contra hps
      rw [Bool.not_eq_false] at hps
      rw [strStartsWith, List.isPrefixOf_iff_prefix] at h hps
      rcases List.prefix_or_prefix_of_prefix h hps with hp | hp
      · exact absurd hp (by decide)
      · exact absurd hp (by decide)
    simp [getChannelType, hnp, h]
  · intro h1 h2
    simp [getChannelType, h1, h2]
  · intro hnone hok
    rcases hty : getChannelType name with _ | _ | _
    · exact ⟨⟨name, .public', false⟩, by
        simp only [LatteStream.subscribe, hnone, hty, mapSet,
          jsMapSet_of_lookup_none cl.channels name _ hnone], rfl, rfl, rfl⟩
    · have hauth : cl.hasAuthorizer = true := by
        rcases hok with hpub | ha
        · rw [hty] at hpub
          exact absurd hpub (by simp)
        · exact ha
      exact ⟨⟨name, .private', false⟩, by
        simp only [LatteStream.subscribe, hnone, hty, hauth, if_true, mapSet,
          jsMapSet_of_lookup_none cl.channels name _ hnone], hty ▸ rfl, rfl, rfl⟩
    · have hauth : cl.hasAuthorizer = true := by
        rcases hok with hpub | ha
        · rw [hty] at hpub
          exact absurd hpub (by simp)
        · exact ha
      exact ⟨⟨name, .presence', false⟩, by
        simp only [LatteStream.subscribe, hnone, hty, hauth, if_true, mapSet,
          jsMapSet_of_lookup_none cl.channels name _ hnone], hty ▸ rfl, rfl, rfl⟩

/-- C7 witness: a fresh client subscribing to `presence-room` registers a
presence channel, and re-subscribing returns the identical stored object
with the client unchanged. -/
theorem subscribe_idempotent_and_classified_witness :
    (strStartsWith "presence-room" "presence-" = true
      ∧ getChannelType "presence-room" = .presence')
    ∧ (([] : List (String × ChannelS)).lookup "presence-room" = none
      ∧ ∃ ch, LatteStream.subscribe ⟨[], true⟩ "presence-room"
            = (.ok ch, ⟨[] ++ [("presence-room", ch)], true⟩)
          ∧ ch.ctype = getChannelType "presence-room" ∧ ch.name = "presence-room"
          ∧ ch.subscribed = false)
    ∧ ((([("presence-room", ⟨"presence-room", .presence', false⟩)]
            : List (String × ChannelS)).lookup "presence-room"
          = some ⟨"presence-room", .presence', false⟩)
      ∧ LatteStream.subscribe
            ⟨[("presence-room", ⟨"presence-room", .presence', false⟩)], true⟩
            "presence-room"
          = (.ok ⟨"presence-room", .presence', false⟩,
              ⟨[("presence-room", ⟨"presence-room", .presence', false⟩)], true⟩)) :=
  ⟨⟨by decide,
      (subscribe_idempotent_and_classified ⟨[], true⟩ "presence-room").2.1 (by decide)⟩,
    ⟨rfl,
      (subscribe_idempotent_and_classified ⟨[], true⟩ "presence-room").2.2.2.2
        rfl (Or.inr rfl)⟩,
    ⟨by simp [List.lookup],
      (subscribe_idempotent_and_classified
          ⟨[("presence-room", ⟨"presence-room", .presence', false⟩)], true⟩
          "presence-room").1
        ⟨"presence-room", .presence', false⟩ (by simp [List.lookup])⟩⟩

/-- C10: subscribing to a not-yet-registered private or presence channel
name on a client constructed without `authEndpoint` (so no authorizer)
throws synchronously before `channels.set` runs: the call returns the
error, the channel map is unchanged and still has no entry for the name,
and a repeated call behaves identically. -/
theorem subscribe_without_authorizer_throws (cl : ClientS) (name : String)
    (hnone : cl.channels.lookup name = none)
    (hauth : cl.hasAuthorizer = false)
    (hty : getChannelType name = .private' ∨ getChannelType name = .presence') :
    (∃ err, LatteStream.subscribe cl name = (.error err, cl))
    ∧ (LatteStream.subscribe cl name).2 = cl
    ∧ (LatteStream.subscribe cl name).2.channels.lookup name = none
    ∧ (LatteStream.subscribe (LatteStream.subscribe cl name).2 name).1
        = (LatteStream.subscribe cl name).1 := by
  rcases hty with h | h
  · refine ⟨⟨.privateRequiresAuthEndpoint, ?_⟩, ?_, ?_, ?_⟩ <;>
      simp [LatteStream.subscribe, hnone, h, hauth]
  · refine ⟨⟨.presenceRequiresAuthEndpoint, ?_⟩, ?_, ?_, ?_⟩ <;>
      simp [LatteStream.subscribe, hnone, h, hauth]

/-- C10 witness: a fresh client with no authorizer and the name
`private-orders`. -/
theorem subscribe_without_authorizer_throws_witness :
    (([] : List (String × ChannelS)).lookup "private-orders" = none
      ∧ (⟨[], false⟩ : ClientS).hasAuthorizer = false
      ∧ getChannelType "private-orders" = .private')
    ∧ (∃ err, LatteStream.subscribe ⟨[], false⟩ "private-orders"
          = (.error err, ⟨[], false⟩))
    ∧ (LatteStream.subscribe ⟨[], false⟩ "private-orders").2 = ⟨[], false⟩
    ∧ (LatteStream.subscribe ⟨[], false⟩
          "private-orders").2.channels.lookup "private-orders" = none :=
  ⟨⟨rfl, rfl, by decide⟩,
    (subscribe_without_authorizer_throws ⟨[], false⟩ "private-orders" rfl rfl
      (Or.inl (by decide))).1,
    (subscribe_without_authorizer_throws ⟨[], false⟩ "private-orders" rfl rfl
      (Or.inl (by decide))).2.1,
    (subscribe_without_authorizer_throws ⟨[], false⟩ "private-orders" rfl rfl
      (Or.inl (by decide))).2.2.1⟩

/-- C8: presence membership operations are idempotent — adding the same
member id twice (with any infos) leaves exactly one entry for that id in
the member map, holding the info of the latest add; removing an id with no
entry changes nothing, in particular it emits no `member_removed` event. -/
theorem presence_membership_idempotent (s : PresenceS) (id : String) (v w : JVal)
    (hnd : (s.members.map Prod.fst).Nodup) :
    ((PresenceChannel.handleMemberAdded
        (PresenceChannel.handleMemberAdded s id v) id w).members.countP
          (fun p => id == p.1) = 1)
    ∧ ((PresenceChannel.handleMemberAdded
        (PresenceChannel.handleMemberAdded s id v) id w).members.lookup id = some w)
    ∧ (∀ id', s.members.lookup id' = none →
        PresenceChannel.handleMemberRemoved s id' = s
        ∧ (PresenceChannel.handleMemberRemoved s id').emitted = s.emitted) := by
  refine ⟨?_, ?_, ?_⟩
  · simp only [PresenceChannel.handleMemberAdded]
    exact jsMapSet_countKey _ id w (jsMapSet_keys_nodup s.members id v hnd)
  · simp only [PresenceChannel.handleMemberAdded]
    exact jsMapSet_lookup_self _ id w
  · intro id' hid
    have hrem : PresenceChannel.handleMemberRemoved s id' = s := by
      simp [PresenceChannel.handleMemberRemoved, hid]
    exact ⟨hrem, by rw [hrem]⟩

/-- C8 witness: adding the id `u1` twice onto a one-member map keeps a
single `u1` entry with the second info, and removing the absent id `u9`
changes nothing and emits nothing. -/
theorem presence_membership_idempotent_witness :
    (([("u0", JVal.null)].map Prod.fst).Nodup
    ∧ ((PresenceChannel.handleMemberAdded
          (PresenceChannel.handleMemberAdded ⟨[("u0", JVal.null)], []⟩ "u1" (.num 1))
          "u1" (.num 2)).members.countP (fun p => "u1" == p.1) = 1)
    ∧ ((PresenceChannel.handleMemberAdded
          (PresenceChannel.handleMemberAdded ⟨[("u0", JVal.null)], []⟩ "u1" (.num 1))
          "u1" (.num 2)).members.lookup "u1" = some (.num 2))
    ∧ ([("u0", JVal.null)].lookup "u9" = none
      ∧ PresenceChannel.handleMemberRemoved ⟨[("u0", JVal.null)], []⟩ "u9"
          = ⟨[("u0", JVal.null)], []⟩)) :=
  ⟨by simp,
    (presence_membership_idempotent ⟨[("u0", JVal.null)], []⟩ "u1" (.num 1) (.num 2)
      (by simp)).1,
    (presence_membership_idempotent ⟨[("u0", JVal.null)], []⟩ "u1" (.num 1) (.num 2)
      (by simp)).2.1,
    ⟨by simp [List.lookup],
      ((presence_membership_idempotent ⟨[("u0", JVal.null)], []⟩ "u1" (.num 1) (.num 2)
        (by simp)).2.2 "u9" (by simp [List.lookup])).1⟩⟩

/-- C4: any frame whose declared `payloadLength` exceeds the bytes after
the 8-byte header fails with the payload-truncation error, any frame with
`payloadLength` zero fails with the zero-length error, and a type-`0x02`
frame whose declared `metadataLength` exceeds the available metadata bytes
fails with the metadata-truncation error — in every case an error is
raised (never partial or empty data), and the metadata case is a
truncation error, not a JSON parse error. -/
theorem binary_truncation_always_errors (jsonParse : List Nat → Option JVal)
    (b0 b1 b2 b3 b4 b5 b6 b7 : Nat) (rest : List Nat)
    (meta : List Nat) (metaLen : Nat) :
    (rest.length < readU32le b4 b5 b6 b7 →
      parseLatteStreamBinaryProtocol jsonParse
          (b0 :: b1 :: b2 :: b3 :: b4 :: b5 :: b6 :: b7 :: rest)
        = .error (.payloadTruncated (8 + readU32le b4 b5 b6 b7) (8 + rest.length)))
    ∧ (parseLatteStreamBinaryProtocol jsonParse
          (b0 :: b1 :: b2 :: b3 :: 0 :: 0 :: 0 :: 0 :: rest)
        = .error .zeroPayloadLength)
    ∧ (meta.length < metaLen → metaLen < 4294967296 →
        4 + meta.length < 4294967296 →
        parseLatteStreamBinaryProtocol jsonParse
            (u32le 2 ++ u32le (4 + meta.length) ++ (u32le metaLen ++ meta))
          = .error (.wrapped 2 (.metadataTruncated (4 + metaLen) (4 + meta.length)))
        ∧ DecodeError.wrapped 2 (.metadataTruncated (4 + metaLen) (4 + meta.length))
            ≠ DecodeError.wrapped 2 .jsonError) := by
  refine ⟨?_, ?_, ?_⟩
  · intro h
    simp only [parseLatteStreamBinaryProtocol]
    rw [if_pos (by omega)]
  · simp only [parseLatteStreamBinaryProtocol, readU32le]
    norm_num
  · intro hlt hL hk
    constructor
    · have hpl : readU32le ((4 + meta.length) % 256) ((4 + meta.length) / 256 % 256)
          ((4 + meta.length) / 65536 % 256) ((4 + meta.length) / 16777216 % 256)
          = 4 + meta.length := readU32le_u32le _ hk
      have hml : readU32le (metaLen % 256) (metaLen / 256 % 256)
          (metaLen / 65536 % 256) (metaLen / 16777216 % 256)
          = metaLen := readU32le_u32le _ hL
      have h2 : readU32le (2 % 256) (2 / 256 % 256) (2 / 65536 % 256) (2 / 16777216 % 256)
          = 2 := readU32le_u32le 2 (by norm_num)
      simp only [u32le, List.cons_append, List.nil_append]
      simp only [parseLatteStreamBinaryProtocol, h2, hpl]
      rw [if_neg (by simp only [List.length_cons]; omega)]
      rw [if_neg (by omega)]
      rw [if_neg (show ¬ (2 = 1) by omega)]
      rw [if_pos trivial]
      rw [List.take_of_length_le (by simp only [List.length_cons]; omega)]
      simp only [parseBinaryPayloadWithMetadata, hml]
      rw [if_pos (by omega)]
      simp [wrapErr]
    · intro h
      have := (DecodeError.wrapped.injEq _ _ _ _).mp h
      cases this.2

/-- C4 witness: scenario D — a `0x02` frame declaring `metadataLength` 20
with only 15 metadata bytes present (payload length 19); plus a frame
declaring 12 payload bytes with only 2 present, and a zero-length frame.
`jsonParse` is instantiated with a parser that never succeeds, showing no
JSON parsing is involved in the outcome. -/
theorem binary_truncation_always_errors_witness :
    (([9, 9] : List Nat).length < readU32le 12 0 0 0
      ∧ parseLatteStreamBinaryProtocol (fun _ => none)
          (1 :: 0 :: 0 :: 0 :: 12 :: 0 :: 0 :: 0 :: [9, 9])
        = .error (.payloadTruncated (8 + readU32le 12 0 0 0) (8 + 2)))
    ∧ parseLatteStreamBinaryProtocol (fun _ => none)
        (1 :: 0 :: 0 :: 0 :: 0 :: 0 :: 0 :: 0 :: [9, 9])
      = .error .zeroPayloadLength
    ∧ (([3, 3, 3, 3, 3, 3, 3, 3, 3, 3, 3, 3, 3, 3, 3] : List Nat).length < 20
      ∧ parseLatteStreamBinaryProtocol (fun _ => none)
          (u32le 2 ++ u32le (4 + ([3, 3, 3, 3, 3, 3, 3, 3, 3, 3, 3, 3, 3, 3, 3]
              : List Nat).length)
            ++ (u32le 20 ++ [3, 3, 3, 3, 3, 3, 3, 3, 3, 3, 3, 3, 3, 3, 3]))
        = .error (.wrapped 2 (.metadataTruncated (4 + 20) (4 + 15)))) :=
  ⟨⟨by decide,
      (binary_truncation_always_errors (fun _ => none) 1 0 0 0 12 0 0 0 [9, 9]
        [] 0).1 (by decide)⟩,
    (binary_truncation_always_errors (fun _ => none) 1 0 0 0 0 0 0 0 [9, 9] [] 0).2.1,
    ⟨by decide,
      ((binary_truncation_always_errors (fun _ => none) 0 0 0 0 0 0 0 0 []
          [3, 3, 3, 3, 3, 3, 3, 3, 3, 3, 3, 3, 3, 3, 3] 20).2.2 (by decide) (by decide)
          (by decide)).1⟩⟩

/-- C3 counterexample: decoding `createBinaryMessage(0x02, payload)` does
not yield back the input payload — the source spreads the metadata fields
into the result object next to `binaryData` instead of re-nesting them
under a `metadata` key, so the decoded value differs from the input
`\x7bmetadata, binaryData\x7d` object. -/
theorem binary_roundtrip_exact_claim_false :
    decodeEncoded toyStringify toyParse 2
        (.obj [("metadata", .obj [("a", JVal.num 1)]), ("binaryData", .bytes [5, 6])])
      = some (.ok (.obj [("a", JVal.num 1), ("binaryData", .bytes [5, 6])]))
    ∧ JVal.obj [("a", JVal.num 1), ("binaryData", .bytes [5, 6])]
      ≠ JVal.obj [("metadata", .obj [("a", JVal.num 1)]), ("binaryData", .bytes [5, 6])] := by
  constructor
  · rfl
  · intro h
    have h1 := (JVal.obj.injEq _ _).mp h
    have h2 := (List.cons.injEq _ _ _ _).mp h1
    have h3 := (Prod.mk.injEq _ _ _ _).mp h2.1
    exact absurd h3.1 (by decide)

/-- C3 amended: the binary framing round-trips exactly. For type `0x01`,
decoding the created frame returns the payload whenever the external JSON
codec round-trips it. For type `0x02` with payload
`\x7bmetadata: obj fs, binaryData: bytes b\x7d`, decoding returns the
metadata object with a `binaryData` field holding exactly the tail bytes
`b` (the spread-merge of the source), so metadata and bytes are recovered
losslessly, though not re-nested in the input shape. -/
theorem binary_roundtrip (stringify : JVal → List Nat) (jsonParse : List Nat → Option JVal)
    (p : JVal) (hp : jsonParse (stringify p) = some p)
    (hpne : stringify p ≠ []) (hplt : (stringify p).length < 4294967296)
    (fs : List (String × JVal)) (b : List Nat)
    (hm : jsonParse (stringify (.obj fs)) = some (.obj fs))
    (hmne : stringify (.obj fs) ≠ [])
    (hmlt : 4 + (stringify (.obj fs)).length + b.length < 4294967296) :
    decodeEncoded stringify jsonParse 1 p = some (.ok p)
    ∧ decodeEncoded stringify jsonParse 2
        (.obj [("metadata", .obj fs), ("binaryData", .bytes b)])
      = some (.ok (.obj (setKey fs "binaryData" (.bytes b)))) := by
  constructor
  · have hL : readU32le ((stringify p).length % 256) ((stringify p).length / 256 % 256)
        ((stringify p).length / 65536 % 256) ((stringify p).length / 16777216 % 256)
        = (stringify p).length := readU32le_u32le _ hplt
    have h1 : readU32le (1 % 256) (1 / 256 % 256) (1 / 65536 % 256) (1 / 16777216 % 256)
        = 1 := readU32le_u32le 1 (by norm_num)
    have hlen0 : (stringify p).length ≠ 0 := by
      simpa using hpne
    simp only [decodeEncoded, createBinaryMessage, if_pos rfl]
    rw [if_pos trivial]
    show some (parseLatteStreamBinaryProtocol jsonParse
        (u32le 1 ++ u32le (stringify p).length ++ stringify p)) = some (Except.ok p)
    refine congrArg some ?_
    simp only [u32le, List.cons_append, List.nil_append]
    simp only [parseLatteStreamBinaryProtocol]
    simp only [h1, hL]
    rw [if_neg (by omega)]
    rw [if_neg hlen0]
    rw [if_pos trivial]
    rw [List.take_of_length_le (le_refl _)]
    rw [hp]
    simp [wrapErr]
  · have hmlen0 : (stringify (.obj fs)).length ≠ 0 := by
      simpa using hmne
    have hmlt4 : (stringify (.obj fs)).length < 4294967296 := by omega
    have hmlL : readU32le ((stringify (.obj fs)).length % 256)
        ((stringify (.obj fs)).length / 256 % 256)
        ((stringify (.obj fs)).length / 65536 % 256)
        ((stringify (.obj fs)).length / 16777216 % 256)
        = (stringify (.obj fs)).length := readU32le_u32le _ hmlt4
    have hPL : readU32le ((4 + (stringify (.obj fs)).length + b.length) % 256)
        ((4 + (stringify (.obj fs)).length + b.length) / 256 % 256)
        ((4 + (stringify (.obj fs)).length + b.length) / 65536 % 256)
        ((4 + (stringify (.obj fs)).length + b.length) / 16777216 % 256)
        = 4 + (stringify (.obj fs)).length + b.length := readU32le_u32le _ hmlt
    have h2 : readU32le (2 % 256) (2 / 256 % 256) (2 / 65536 % 256) (2 / 16777216 % 256)
        = 2 := readU32le_u32le 2 (by norm_num)
    simp only [decodeEncoded, createBinaryMessage]
    rw [if_neg (show ¬ (2 = 1) by omega)]
    simp only [JVal.getField, List.lookup,
      show (("binaryData":String) == "metadata") = false from by decide,
      show (("binaryData":String) == "binaryData") = true from by decide,
      show (("metadata":String) == "metadata") = true from by decide]
    simp only [JVal.truthy, Bool.and_self]
    rw [if_pos trivial]
    show some (parseLatteStreamBinaryProtocol jsonParse
        (u32le 2
          ++ u32le (u32le (stringify (JVal.obj fs)).length ++ stringify (JVal.obj fs) ++ b).length
          ++ (u32le (stringify (JVal.obj fs)).length ++ stringify (JVal.obj fs) ++ b)))
      = some (Except.ok (JVal.obj (setKey fs "binaryData" (JVal.bytes b))))
    refine congrArg some ?_
    have hplen : (u32le (stringify (JVal.obj fs)).length ++ stringify (JVal.obj fs) ++ b).length
        = 4 + (stringify (JVal.obj fs)).length + b.length := by
      simp [u32le]
      omega
    rw [hplen]
    simp only [u32le, List.cons_append, List.nil_append]
    simp only [parseLatteStreamBinaryProtocol]
    simp only [h2, hPL]
    rw [if_neg (by simp only [List.length_cons, List.length_append]; omega)]
    rw [if_neg (by omega)]
    rw [if_neg (show ¬ (2 = 1) by omega)]
    rw [if_pos trivial]
    rw [List.take_of_length_le (by simp only [List.length_cons, List.length_append]; omega)]
    simp only [parseBinaryPayloadWithMetadata, hmlL]
    rw [if_neg (by simp only [List.length_append]; omega)]
    rw [if_neg hmlen0]
    rw [List.take_left, List.drop_left]
    rw [hm]
    simp [jsSpreadWithBinaryData, wrapErr]

/-- C3 amended witness: the toy codec at the object with field `a`, with
binary tail `[5, 6]`, run through both round-trip parts. -/
theorem binary_roundtrip_witness :
    (toyParse (toyStringify (.obj [("a", JVal.num 1)])) = some (.obj [("a", JVal.num 1)])
      ∧ toyStringify (.obj [("a", JVal.num 1)]) ≠ []
      ∧ (toyStringify (.obj [("a", JVal.num 1)])).length < 4294967296
      ∧ 4 + (toyStringify (.obj [("a", JVal.num 1)])).length + ([5, 6] : List Nat).length
          < 4294967296)
    ∧ decodeEncoded toyStringify toyParse 1 (.obj [("a", JVal.num 1)])
        = some (.ok (.obj [("a", JVal.num 1)]))
    ∧ decodeEncoded toyStringify toyParse 2
        (.obj [("metadata", .obj [("a", JVal.num 1)]), ("binaryData", .bytes [5, 6])])
      = some (.ok (.obj (setKey [("a", JVal.num 1)] "binaryData" (.bytes [5, 6])))) :=
  ⟨⟨rfl, by decide, by decide, by decide⟩,
    (binary_roundtrip toyStringify toyParse (.obj [("a", JVal.num 1)]) rfl
      (by decide) (by decide) [("a", JVal.num 1)] [5, 6] rfl (by decide) (by decide)).1,
    (binary_roundtrip toyStringify toyParse (.obj [("a", JVal.num 1)]) rfl
      (by decide) (by decide) [("a", JVal.num 1)] [5, 6] rfl (by decide) (by decide)).2⟩

/-- C9 counterexample: `verifyAuthString` does not accept exactly the
generated auth string — appending `:x` to a valid auth string yields a
different string that is still accepted, because verification examines
only the first two `:`-separated segments. -/
theorem verify_exact_accept_claim_false :
    verifyAuthString toyHmac ['k']
        (['i', 'd'] ++ ':' :: ['s', 'i', 'g'] ++ [':', 'x']) ['c'] none = true
    ∧ (['i', 'd'] ++ ':' :: ['s', 'i', 'g'] ++ [':', 'x'])
      ≠ generateAuthString toyHmac ['k'] ['i', 'd'] ['c'] none := by
  constructor
  · rfl
  · decide

/-- C9 amended: `generateAuthString` returns
`socketId ++ ":" ++ hmac(secret, signingString)` with the signing string
as specified; for a nonempty socket id free of `:` and digests free of `:`,
`verifyAuthString` accepts the generated string, rejects every same-length
signature alteration (hence any single-bit mutation), and rejects
mismatched channel data whenever the two digests differ — but, per the
counterexample, it also accepts extensions of a valid auth string after a
further `:`. -/
theorem authString_generate_verify (hmac : JStr → JStr → JStr)
    (masterKey socketId channelName : JStr) (channelData : Option JStr)
    (hsid_ne : socketId ≠ []) (hsid : ':' ∉ socketId)
    (hsig : ':' ∉ hmac masterKey (signingString socketId channelName channelData))
    (hsig_ne : hmac masterKey (signingString socketId channelName channelData) ≠ []) :
    generateAuthString hmac masterKey socketId channelName channelData
        = socketId ++ ':' :: hmac masterKey (signingString socketId channelName channelData)
    ∧ verifyAuthString hmac masterKey
        (generateAuthString hmac masterKey socketId channelName channelData)
        channelName channelData = true
    ∧ (∀ s', s'.length
          = (hmac masterKey (signingString socketId channelName channelData)).length →
        s' ≠ hmac masterKey (signingString socketId channelName channelData) →
        verifyAuthString hmac masterKey (socketId ++ ':' :: s') channelName channelData
          = false)
    ∧ (∀ cd', ':' ∉ hmac masterKey (signingString socketId channelName cd') →
        hmac masterKey (signingString socketId channelName cd')
          ≠ hmac masterKey (signingString socketId channelName channelData) →
        verifyAuthString hmac masterKey
          (generateAuthString hmac masterKey socketId channelName channelData)
          channelName cd' = false) := by
  have hgen : generateAuthString hmac masterKey socketId channelName channelData
      = socketId ++ ':' :: hmac masterKey (signingString socketId channelName channelData) := rfl
  have hsplit : jsplit ':' (socketId ++ ':'
        :: hmac masterKey (signingString socketId channelName channelData))
      = socketId :: [hmac masterKey (signingString socketId channelName channelData)] := by
    rw [jsplit_append_sep ':' _ _ hsid, jsplit_no_sep ':' _ hsig]
  refine ⟨hgen, ?_, ?_, ?_⟩
  · simp only [verifyAuthString, hgen, hsplit, List.get?]
    rw [if_neg (by simp [hsid_ne, hsig_ne])]
    exact (constantTimeCompare_iff _ _).mpr rfl
  · intro s' hlen hne
    have hsplit1 : jsplit ':' (socketId ++ ':' :: s') = socketId :: jsplit ':' s' :=
      jsplit_append_sep ':' _ _ hsid
    rcases hjs : jsplit ':' s' with _ | ⟨x, t⟩
    · exact absurd hjs (jsplit_ne_nil ':' s')
    · have hx : x = s'.takeWhile (fun c => !(c = ':' : Bool)) := by
        have hh := jsplit_head ':' s'
        rw [hjs] at hh
        exact Option.some.inj hh
      rw [hjs] at hsplit1
      simp only [verifyAuthString, hsplit1, List.get?]
      by_cases hxe : x = []
      · rw [if_pos (Or.inr hxe)]
      · rw [if_neg (by simp [hsid_ne, hxe])]
        simp only [hgen, hsplit, List.get?]
        cases hcmp : constantTimeCompare x
            (hmac masterKey (signingString socketId channelName channelData))
        · rfl
        · exfalso
          have hxh : x = hmac masterKey (signingString socketId channelName channelData) :=
            (constantTimeCompare_iff _ _).mp hcmp
          have hpre : x <+: s' := hx ▸ List.takeWhile_prefix _
          have hxlen : x.length = s'.length := by rw [hxh, hlen]
          have hxs : x = s' := hpre.eq_of_length hxlen
          exact hne (hxs ▸ hxh)
  · intro cd' hsig' hneq
    have hgen' : generateAuthString hmac masterKey socketId channelName cd'
        = socketId ++ ':' :: hmac masterKey (signingString socketId channelName cd') := rfl
    have hsplit' : jsplit ':' (socketId ++ ':'
          :: hmac masterKey (signingString socketId channelName cd'))
        = socketId :: [hmac masterKey (signingString socketId channelName cd')] := by
      rw [jsplit_append_sep ':' _ _ hsid, jsplit_no_sep ':' _ hsig']
    simp only [verifyAuthString, hgen, hsplit, hgen', hsplit', List.get?]
    rw [if_neg (by simp [hsid_ne, hsig_ne])]
    cases hcmp : constantTimeCompare
        (hmac masterKey (signingString socketId channelName channelData))
        (hmac masterKey (signingString socketId channelName cd'))
    · rfl
    · exact absurd ((constantTimeCompare_iff _ _).mp hcmp).symm hneq

/-- C9 amended witness: a colon-stripping digest function at socket id
`id`, channel `c`, no channel data; the mutation clause is checked at the
altered signature `xidc` and the mismatch clause at channel data `d`. -/
theorem authString_generate_verify_witness :
    ((['i', 'd'] : JStr) ≠ []
      ∧ ':' ∉ (['i', 'd'] : JStr)
      ∧ ':' ∉ hmacW ['k'] (signingString ['i', 'd'] ['c'] none)
      ∧ hmacW ['k'] (signingString ['i', 'd'] ['c'] none) ≠ [])
    ∧ verifyAuthString hmacW ['k']
        (generateAuthString hmacW ['k'] ['i', 'd'] ['c'] none) ['c'] none = true
    ∧ (['x', 'i', 'd', 'c'] : JStr).length
        = (hmacW ['k'] (signingString ['i', 'd'] ['c'] none)).length
    ∧ verifyAuthString hmacW ['k'] (['i', 'd'] ++ ':' :: ['x', 'i', 'd', 'c'])
        ['c'] none = false
    ∧ verifyAuthString hmacW ['k']
        (generateAuthString hmacW ['k'] ['i', 'd'] ['c'] none) ['c'] (some ['d'])
      = false :=
  ⟨⟨by decide, by decide, by decide, by decide⟩,
    (authString_generate_verify hmacW ['k'] ['i', 'd'] ['c'] none
      (by decide) (by decide) (by decide) (by decide)).2.1,
    by decide,
    (authString_generate_verify hmacW ['k'] ['i', 'd'] ['c'] none
      (by decide) (by decide) (by decide) (by decide)).2.2.1
      ['x', 'i', 'd', 'c'] (by decide) (by decide),
    (authString_generate_verify hmacW ['k'] ['i', 'd'] ['c'] none
      (by decide) (by decide) (by decide) (by decide)).2.2.2
      (some ['d']) (by decide) (by decide)⟩
